import Mathlib

/-!
Verification development for the ultra-sound-oracle attestation server
(`src/bin/server/attestations/mod.rs`).

The Rust module validates BLS-signed price attestations and folds interval
claims into per-(value, slot_number, interval_size) aggregate buckets stored
in SQLite.  We embed the module shallowly:

* the external `bls`, `sha3` and `hex` crates are abstracted as a `Crypto`
  structure of opaque-but-executable functions;
* the SQLite tables become lists of rows in a `DbState`; every
  `sqlx::query!(...).execute/fetch` becomes one step of a state-and-error
  monad `DbM` that can also inject a storage failure (modelling a failing
  database call) from an explicit fault schedule;
* `eyre::Result` errors become the tagged type `OracleError`, one
  constructor per distinct error value the Rust code constructs.

Numeric DB columns of type `i64` are modelled as `Int`; the `u64` message
fields as `Nat` (no arithmetic is performed on them, only `to_string`).
-/

/-- Abstraction of the external `bls`, `sha3` and `hex` crates used by the
attestation module.  `Sig` is `bls::Signature`, `PubKey` is `bls::PublicKey`,
`AggSig` is `bls::AggregateSignature`; bytes are `List Nat`. -/
structure Crypto where
  Sig : Type
  PubKey : Type
  AggSig : Type
  /-- Models `sha3::Sha3_256::digest`. -/
  sha3_256 : List Nat → List Nat
  /-- A SHA3-256 digest is 32 bytes (`Hash256::from_slice` requires this). -/
  sha3_256_len : ∀ bs, (sha3_256 bs).length = 32
  /-- Models `Signature::verify(public_key, message_digest)`. -/
  verify : Sig → PubKey → List Nat → Bool
  /-- Models `AggregateSignature::infinity()`. -/
  infinity : AggSig
  /-- Models `AggregateSignature::add_assign(&signature)`. -/
  add_assign : AggSig → Sig → AggSig
  /-- Models `AggregateSignature::serialize()`. -/
  serializeAgg : AggSig → List Nat
  /-- Models `AggregateSignature::deserialize(bytes)`, which can fail. -/
  deserializeAgg : List Nat → Option AggSig
  /-- Models `hex::encode(bytes)`. -/
  hex_encode : List Nat → String
  /-- Models `hex::decode(string)`, which can fail. -/
  hex_decode : String → Option (List Nat)
  /-- Models `Signature::to_string()`. -/
  sig_to_string : Sig → String
  /-- Models `PublicKey::to_string()`. -/
  pk_to_string : PubKey → String

/-- Rust `struct Price { value: u64 }`. -/
structure Price where
  value : Nat
deriving DecidableEq, Repr

/-- Rust `struct PriceValueMessage { price: Price, slot_number: u64 }`. -/
structure PriceValueMessage where
  price : Price
  slot_number : Nat
deriving DecidableEq, Repr

/-- Rust `struct SignedPriceValueMessage { message, signature }`. -/
structure SignedPriceValueMessage (Sig : Type) where
  message : PriceValueMessage
  signature : Sig

/-- Rust `struct IntervalInclusionMessage { value: u64, interval_size: u64, slot_number: u64 }`. -/
structure IntervalInclusionMessage where
  value : Nat
  interval_size : Nat
  slot_number : Nat
deriving DecidableEq, Repr

/-- Rust `struct SignedIntervalInclusionMessage { message, signature }`. -/
structure SignedIntervalInclusionMessage (Sig : Type) where
  message : IntervalInclusionMessage
  signature : Sig

/-- Rust `struct OracleMessage { value_message, interval_inclusion_messages, validator_public_key }`. -/
structure OracleMessage (C : Crypto) where
  value_message : SignedPriceValueMessage C.Sig
  interval_inclusion_messages : List (SignedIntervalInclusionMessage C.Sig)
  validator_public_key : C.PubKey

/-- SSZ encoding of a `u64`: 8 bytes, little endian (fixed width). -/
def u64_le_bytes (n : Nat) : List Nat :=
  (List.range 8).map fun i => n / 256 ^ i % 256

/-- SSZ encoding of `Price` (a container of one `u64`), from `#[derive(Encode)]`. -/
def Price.ssz_bytes (p : Price) : List Nat :=
  u64_le_bytes p.value

/-- SSZ encoding of `PriceValueMessage`: fields in declaration order, fixed width. -/
def PriceValueMessage.ssz_bytes (m : PriceValueMessage) : List Nat :=
  m.price.ssz_bytes ++ u64_le_bytes m.slot_number

/-- SSZ encoding of `IntervalInclusionMessage`: fields in declaration order, fixed width. -/
def IntervalInclusionMessage.ssz_bytes (m : IntervalInclusionMessage) : List Nat :=
  u64_le_bytes m.value ++ u64_le_bytes m.interval_size ++ u64_le_bytes m.slot_number

/-- Rust `get_message_digest`: SSZ-serialize the message, then SHA3-256
(`Hash256::from_slice(&Sha3_256::digest(message_ssz))`).  The ssz encoder for
the message type is passed explicitly (Rust's `T: ssz::Encode` bound). -/
def get_message_digest {T : Type} (C : Crypto) (enc : T → List Nat) (message : T) : List Nat :=
  C.sha3_256 (enc message)

/-- Rust `validate_message`: verify the signature against the public key and the
message digest. -/
def validate_message {T : Type} (C : Crypto) (enc : T → List Nat)
    (public_key : C.PubKey) (message : T) (signature : C.Sig) : Bool :=
  C.verify signature public_key (get_message_digest C enc message)

/-- Row of the `price_value_attestations` table; all columns are stored as
text except where noted (the Rust code writes `to_string()` values). -/
structure PriceValueAttestationRow where
  validator_public_key : String
  value : String
  slot_number : String
  signature : String
deriving DecidableEq, Repr

/-- Row of the `price_interval_attestations` table. -/
structure PriceIntervalAttestationRow where
  validator_public_key : String
  value : String
  interval_size : String
  slot_number : String
  signature : String
deriving DecidableEq, Repr

/-- Row of the `aggregate_interval_attestations` table (`num_validators` is
an `i64` column). -/
structure AggregateIntervalAttestationRow where
  value : String
  interval_size : String
  slot_number : String
  num_validators : Int
  aggregate_signature : String
deriving DecidableEq, Repr

/-- The three SQLite tables the module touches. -/
structure DbState where
  price_value_attestations : List PriceValueAttestationRow
  price_interval_attestations : List PriceIntervalAttestationRow
  aggregate_interval_attestations : List AggregateIntervalAttestationRow
deriving DecidableEq, Repr

/-- The distinct error values the Rust module can return (it uses
`eyre::Result`; each constructor corresponds to one distinct error the code
constructs).  `hexDecodeError` and `invalidAggregateSignatureInDb` are the
two faces of a malformed stored aggregate signature; `storageFailure` is a
failing `sqlx` database call. -/
inductive OracleError where
  /-- Corresponds to `eyre!("Invalid signature")`. -/
  | invalidSignature : OracleError
  /-- Corresponds to `hex::decode(entry.aggregate_signature)?` failing. -/
  | hexDecodeError : OracleError
  /-- Corresponds to `eyre!("Invalid aggregate signature in DB")`. -/
  | invalidAggregateSignatureInDb : OracleError
  /-- An `sqlx` query returned an error. -/
  | storageFailure : OracleError
deriving DecidableEq, Repr

/-- A fault schedule: one `Bool` per database call, `false` meaning that call
fails with a storage error.  An exhausted schedule means all remaining calls
succeed. -/
abbrev Faults := List Bool

/-- State-and-error monad for the attestation handlers: a function of the
database state and the remaining fault schedule, returning a result and the
new state (the state at the point of failure is kept, since SQLite persists
every statement that completed). -/
def DbM (α : Type) : Type :=
  DbState × Faults → Except OracleError α × (DbState × Faults)

def DbM.pure {α : Type} (a : α) : DbM α := fun s => (Except.ok a, s)

def DbM.bind {α β : Type} (m : DbM α) (f : α → DbM β) : DbM β := fun s =>
  match m s with
  | (Except.ok a, s') => f a s'
  | (Except.error e, s') => (Except.error e, s')

instance DbM.instMonad : Monad DbM where
  pure := DbM.pure
  bind := DbM.bind

/-- Models `return Err(e)` in a handler. -/
def throwErr {α : Type} (e : OracleError) : DbM α := fun s => (Except.error e, s)

/-- Consume one entry of the fault schedule; a `false` entry makes the
current database call fail. -/
def sqlx_step : DbM Unit := fun s =>
  match s with
  | (db, []) => (Except.ok (), (db, []))
  | (db, b :: rest) =>
      if b then (Except.ok (), (db, rest)) else (Except.error OracleError.storageFailure, (db, rest))

/-- A `sqlx` read query (`fetch_optional` / `fetch_all`): one database call,
then a pure projection of the state. -/
def sqlx_fetch {α : Type} (q : DbState → α) : DbM α :=
  DbM.bind sqlx_step fun _ => fun s => (Except.ok (q s.1), s)

/-- A `sqlx` write query (`execute` of INSERT/UPDATE): one database call,
then a pure transformation of the state. -/
def sqlx_exec (f : DbState → DbState) : DbM Unit :=
  DbM.bind sqlx_step fun _ => fun s => (Except.ok (), (f s.1, s.2))

/-- The WHERE clause shared by the SELECT and the UPDATE on
`aggregate_interval_attestations`:
`interval_size = ?1 AND slot_number = ?2 AND value = ?3`. -/
def agg_key_matches (interval_size slot_number value : String)
    (r : AggregateIntervalAttestationRow) : Bool :=
  r.interval_size == interval_size && r.slot_number == slot_number && r.value == value

/-- The SELECT of `extend_or_create_aggregate_interval_attestation`
(`fetch_optional`: first row matching the key, if any). -/
def find_aggregate_interval_attestation (interval_size slot_number value : String)
    (db : DbState) : Option AggregateIntervalAttestationRow :=
  db.aggregate_interval_attestations.find? (agg_key_matches interval_size slot_number value)

/-- INSERT INTO `price_value_attestations`. -/
def insert_price_value_attestation (row : PriceValueAttestationRow) (db : DbState) : DbState :=
  { db with price_value_attestations := db.price_value_attestations ++ [row] }

/-- INSERT INTO `price_interval_attestations`. -/
def insert_price_interval_attestation (row : PriceIntervalAttestationRow) (db : DbState) : DbState :=
  { db with price_interval_attestations := db.price_interval_attestations ++ [row] }

/-- INSERT INTO `aggregate_interval_attestations`. -/
def insert_aggregate_interval_attestation (row : AggregateIntervalAttestationRow)
    (db : DbState) : DbState :=
  { db with aggregate_interval_attestations := db.aggregate_interval_attestations ++ [row] }

/-- UPDATE `aggregate_interval_attestations` SET `num_validators`,
`aggregate_signature` WHERE the key matches (SQL UPDATE touches every
matching row). -/
def update_aggregate_interval_attestation (new_num_validators : Int)
    (new_aggregate_signature : String) (interval_size slot_number value : String)
    (db : DbState) : DbState :=
  { db with aggregate_interval_attestations :=
      db.aggregate_interval_attestations.map fun r =>
        if agg_key_matches interval_size slot_number value r then
          { r with num_validators := new_num_validators,
                   aggregate_signature := new_aggregate_signature }
        else r }

/-- Rust `extend_or_create_aggregate_interval_attestation`: read the bucket for
`(interval_size, slot_number, value)`; if present, decode its stored
aggregate signature and take `num_validators + 1`; if absent, start from
`(1, AggregateSignature::infinity())`; add the new signature; then INSERT
(when the new count is 1) or UPDATE (otherwise). -/
def extend_or_create_aggregate_interval_attestation (C : Crypto)
    (message : SignedIntervalInclusionMessage C.Sig) : DbM Unit :=
  let interval_size := toString message.message.interval_size
  let slot_number := toString message.message.slot_number
  let value := toString message.message.value
  DbM.bind (sqlx_fetch (find_aggregate_interval_attestation interval_size slot_number value))
    fun entry_opt =>
  DbM.bind
    (match entry_opt with
     | some entry =>
         match C.hex_decode entry.aggregate_signature with
         | none => throwErr OracleError.hexDecodeError
         | some bytes =>
             match C.deserializeAgg bytes with
             | none => throwErr OracleError.invalidAggregateSignatureInDb
             | some agg => DbM.pure (entry.num_validators + 1, agg)
     | none => DbM.pure ((1 : Int), C.infinity))
    fun step =>
  let new_num_validators := step.1
  let aggregate_signature := C.add_assign step.2 message.signature
  let new_aggregate_signature := C.hex_encode (C.serializeAgg aggregate_signature)
  if new_num_validators = 1 then
    sqlx_exec (insert_aggregate_interval_attestation
      { value := value, interval_size := interval_size, slot_number := slot_number,
        num_validators := new_num_validators,
        aggregate_signature := new_aggregate_signature })
  else
    sqlx_exec (update_aggregate_interval_attestation new_num_validators
      new_aggregate_signature interval_size slot_number value)

/-- Rust `save_price_value_attestation`: reject on invalid signature, else INSERT
the row. -/
def save_price_value_attestation (C : Crypto) (message : SignedPriceValueMessage C.Sig)
    (validator_public_key : C.PubKey) : DbM Unit :=
  if ¬ validate_message C PriceValueMessage.ssz_bytes validator_public_key
        message.message message.signature then
    throwErr OracleError.invalidSignature
  else
    sqlx_exec (insert_price_value_attestation
      { validator_public_key := C.pk_to_string validator_public_key,
        value := toString message.message.price.value,
        slot_number := toString message.message.slot_number,
        signature := C.sig_to_string message.signature })

/-- Rust `save_price_interval_attestation`: reject on invalid signature, else
INSERT the row and fold it into the aggregate bucket. -/
def save_price_interval_attestation (C : Crypto)
    (message : SignedIntervalInclusionMessage C.Sig)
    (validator_public_key : C.PubKey) : DbM Unit :=
  if ¬ validate_message C IntervalInclusionMessage.ssz_bytes validator_public_key
        message.message message.signature then
    throwErr OracleError.invalidSignature
  else
    DbM.bind
      (sqlx_exec (insert_price_interval_attestation
        { validator_public_key := C.pk_to_string validator_public_key,
          value := toString message.message.value,
          interval_size := toString message.message.interval_size,
          slot_number := toString message.message.slot_number,
          signature := C.sig_to_string message.signature }))
      fun _ => extend_or_create_aggregate_interval_attestation C message

/-- Rust `save_price_interval_attestations`: the `for message in messages` loop
with `?`-propagation (stops at the first failing claim). -/
def save_price_interval_attestations (C : Crypto) :
    List (SignedIntervalInclusionMessage C.Sig) → C.PubKey → DbM Unit
  | [], _ => DbM.pure ()
  | message :: rest, validator_public_key =>
      DbM.bind (save_price_interval_attestation C message validator_public_key)
        fun _ => save_price_interval_attestations C rest validator_public_key

/-- The HTTP status the handler returns on any error. -/
inductive StatusCode where
  | BAD_REQUEST : StatusCode
deriving DecidableEq, Repr

/-- Rust `post_oracle_message`: save the value attestation, then the interval
attestations; any error from either becomes `BAD_REQUEST`. -/
def post_oracle_message (C : Crypto) (message : OracleMessage C)
    (s : DbState × Faults) : Except StatusCode Unit × (DbState × Faults) :=
  match save_price_value_attestation C message.value_message message.validator_public_key s with
  | (Except.error _, s₁) => (Except.error StatusCode.BAD_REQUEST, s₁)
  | (Except.ok _, s₁) =>
      match save_price_interval_attestations C message.interval_inclusion_messages
          message.validator_public_key s₁ with
      | (Except.error _, s₂) => (Except.error StatusCode.BAD_REQUEST, s₂)
      | (Except.ok _, s₂) => (Except.ok (), s₂)

/-- The string actually stored in the `aggregate_signature` column:
`hex::encode(aggregate_signature.serialize())`. -/
def store_agg (C : Crypto) (a : C.AggSig) : String :=
  C.hex_encode (C.serializeAgg a)

/-- Decoding a stored `aggregate_signature` column:
`AggregateSignature::deserialize(&hex::decode(s)?)`. -/
def load_agg (C : Crypto) (s : String) : Option C.AggSig :=
  (C.hex_decode s).bind C.deserializeAgg

/-- The BLS group-sum of a list of signatures, as the code computes it:
start from `AggregateSignature::infinity()` and `add_assign` each one. -/
def group_sum (C : Crypto) (sigs : List C.Sig) : C.AggSig :=
  sigs.foldl C.add_assign C.infinity

/-- A sequence of merges into the aggregate store, one
`extend_or_create_aggregate_interval_attestation` call per message. -/
def merge_sequence (C : Crypto) :
    List (SignedIntervalInclusionMessage C.Sig) → DbM Unit
  | [] => DbM.pure ()
  | message :: rest =>
      DbM.bind (extend_or_create_aggregate_interval_attestation C message)
        fun _ => merge_sequence C rest

/-- A concrete executable instance of `Crypto` used to evaluate the theorems
on concrete inputs: signatures and public keys are `Nat` (a signature is
"valid" when it equals the public key), aggregate signatures are `Char`,
codecs go through one character per aggregate. -/
def testCrypto : Crypto where
  Sig := Nat
  PubKey := Nat
  AggSig := Char
  sha3_256 := fun bs => List.replicate 32 (bs.foldl (· + ·) 0 % 256)
  sha3_256_len := fun _ => List.length_replicate 32 _
  verify := fun s pk _ => s == pk
  infinity := Char.ofNat 0
  add_assign := fun c s => Char.ofNat ((c.toNat + s) % 55296)
  serializeAgg := fun c => [c.toNat]
  deserializeAgg := fun bs =>
    match bs with
    | [n] => some (Char.ofNat n)
    | _ => none
  hex_encode := fun bs => String.mk (bs.map Char.ofNat)
  hex_decode := fun s => if s.data.isEmpty then none else some (s.data.map Char.toNat)
  sig_to_string := fun s => toString s
  pk_to_string := fun pk => toString pk

/-- The test codec round-trips: decoding a stored aggregate gives back the
aggregate. -/
theorem testCrypto_roundtrip :
    ∀ a : testCrypto.AggSig, load_agg testCrypto (store_agg testCrypto a) = some a := by
  intro a
  simp [load_agg, store_agg, testCrypto, Char.ofNat_toNat]

theorem sqlx_step_nil (db : DbState) : sqlx_step (db, []) = (Except.ok (), (db, [])) := rfl

theorem sqlx_fetch_nil {α : Type} (q : DbState → α) (db : DbState) :
    sqlx_fetch q (db, []) = (Except.ok (q db), (db, [])) := rfl

theorem sqlx_exec_nil (f : DbState → DbState) (db : DbState) :
    sqlx_exec f (db, []) = (Except.ok (), (f db, [])) := rfl

/-- The row created by a merge into an absent bucket. -/
def new_aggregate_row (C : Crypto) (m : SignedIntervalInclusionMessage C.Sig) :
    AggregateIntervalAttestationRow :=
  { value := toString m.message.value,
    interval_size := toString m.message.interval_size,
    slot_number := toString m.message.slot_number,
    num_validators := 1,
    aggregate_signature := store_agg C (C.add_assign C.infinity m.signature) }

/-- Characterization of a merge when the bucket is absent: the INSERT branch
runs with count 1 and signature `infinity ⊕ s`. -/
theorem extend_or_create_absent (C : Crypto) (m : SignedIntervalInclusionMessage C.Sig)
    (db : DbState)
    (h : find_aggregate_interval_attestation (toString m.message.interval_size)
      (toString m.message.slot_number) (toString m.message.value) db = none) :
    extend_or_create_aggregate_interval_attestation C m (db, []) =
      (Except.ok (), (insert_aggregate_interval_attestation (new_aggregate_row C m) db, [])) := by
  simp [extend_or_create_aggregate_interval_attestation, sqlx_fetch, sqlx_step, sqlx_exec,
    DbM.bind, DbM.pure, h, new_aggregate_row, store_agg]

/-- Characterization of a merge when the bucket is present with a decodable
aggregate and a count whose successor is not 1: the UPDATE branch runs with
count + 1 and signature `agg ⊕ s`. -/
theorem extend_or_create_present (C : Crypto) (m : SignedIntervalInclusionMessage C.Sig)
    (db : DbState) (entry : AggregateIntervalAttestationRow) (a : C.AggSig)
    (h : find_aggregate_interval_attestation (toString m.message.interval_size)
      (toString m.message.slot_number) (toString m.message.value) db = some entry)
    (hload : load_agg C entry.aggregate_signature = some a)
    (hc : entry.num_validators + 1 ≠ 1) :
    extend_or_create_aggregate_interval_attestation C m (db, []) =
      (Except.ok (), (update_aggregate_interval_attestation (entry.num_validators + 1)
        (store_agg C (C.add_assign a m.signature))
        (toString m.message.interval_size) (toString m.message.slot_number)
        (toString m.message.value) db, [])) := by
  obtain ⟨bs, hhex, hdes⟩ : ∃ bs, C.hex_decode entry.aggregate_signature = some bs ∧
      C.deserializeAgg bs = some a := by
    unfold load_agg at hload
    cases hh : C.hex_decode entry.aggregate_signature with
    | none => rw [hh] at hload; simp at hload
    | some bs => rw [hh] at hload; exact ⟨bs, rfl, hload⟩
  simp [extend_or_create_aggregate_interval_attestation, sqlx_fetch, sqlx_step, sqlx_exec,
    DbM.bind, DbM.pure, h, hhex, hdes, hc, store_agg]

/-- Characterization of a merge when the stored aggregate fails hex
decoding: the call errors and the database is untouched. -/
theorem extend_or_create_bad_hex (C : Crypto) (m : SignedIntervalInclusionMessage C.Sig)
    (db : DbState) (entry : AggregateIntervalAttestationRow)
    (h : find_aggregate_interval_attestation (toString m.message.interval_size)
      (toString m.message.slot_number) (toString m.message.value) db = some entry)
    (hhex : C.hex_decode entry.aggregate_signature = none) :
    extend_or_create_aggregate_interval_attestation C m (db, []) =
      (Except.error OracleError.hexDecodeError, (db, [])) := by
  simp [extend_or_create_aggregate_interval_attestation, sqlx_fetch, sqlx_step,
    DbM.bind, DbM.pure, throwErr, h, hhex]

/-- Characterization of a merge when the stored aggregate hex-decodes but is
not a valid group element: the call errors and the database is untouched. -/
theorem extend_or_create_bad_group_element (C : Crypto)
    (m : SignedIntervalInclusionMessage C.Sig)
    (db : DbState) (entry : AggregateIntervalAttestationRow) (bs : List Nat)
    (h : find_aggregate_interval_attestation (toString m.message.interval_size)
      (toString m.message.slot_number) (toString m.message.value) db = some entry)
    (hhex : C.hex_decode entry.aggregate_signature = some bs)
    (hdes : C.deserializeAgg bs = none) :
    extend_or_create_aggregate_interval_attestation C m (db, []) =
      (Except.error OracleError.invalidAggregateSignatureInDb, (db, [])) := by
  simp [extend_or_create_aggregate_interval_attestation, sqlx_fetch, sqlx_step,
    DbM.bind, DbM.pure, throwErr, h, hhex, hdes]

/-- Lemma: `find?` over a list mapped by a conditional update whose predicate the
update preserves: the first hit is the updated first hit. -/
theorem find?_map_conditional_update {A : Type} (p : A → Bool) (f : A → A)
    (hp : ∀ a, p (f a) = p a) :
    ∀ l : List A, (l.map fun a => if p a then f a else a).find? p = (l.find? p).map f := by
  intro l
  induction l with
  | nil => rfl
  | cons r t ih =>
      by_cases h : p r
      · rw [List.map_cons, if_pos h, List.find?_cons_of_pos _ (by rw [hp]; exact h),
          List.find?_cons_of_pos _ h]
        rfl
      · rw [List.map_cons, if_neg h, List.find?_cons_of_neg _ h,
          List.find?_cons_of_neg _ h, ih]

/-- Looking up a key after inserting a row: the old result, or the new row
when nothing matched before and the new row matches. -/
theorem find_aggregate_insert (interval_size slot_number value : String)
    (row : AggregateIntervalAttestationRow) (db : DbState) :
    find_aggregate_interval_attestation interval_size slot_number value
        (insert_aggregate_interval_attestation row db) =
      (find_aggregate_interval_attestation interval_size slot_number value db).or
        (if agg_key_matches interval_size slot_number value row then some row else none) := by
  simp [find_aggregate_interval_attestation, insert_aggregate_interval_attestation,
    List.find?_append, List.find?_cons]
  rcases h : agg_key_matches interval_size slot_number value row <;> simp [h]

/-- Looking up a key after the UPDATE on that key: the old result with the
two payload columns replaced. -/
theorem find_aggregate_update (new_num_validators : Int) (new_aggregate_signature : String)
    (interval_size slot_number value : String) (db : DbState) :
    find_aggregate_interval_attestation interval_size slot_number value
        (update_aggregate_interval_attestation new_num_validators new_aggregate_signature
          interval_size slot_number value db) =
      (find_aggregate_interval_attestation interval_size slot_number value db).map
        fun r => { r with num_validators := new_num_validators,
                          aggregate_signature := new_aggregate_signature } := by
  simpa [find_aggregate_interval_attestation, update_aggregate_interval_attestation] using
    find?_map_conditional_update (agg_key_matches interval_size slot_number value)
      (fun r => { r with num_validators := new_num_validators,
                         aggregate_signature := new_aggregate_signature })
      (fun r => rfl) db.aggregate_interval_attestations

/-- Inserting an individual interval attestation row does not touch the
aggregate table. -/
theorem find_aggregate_insert_interval_row (interval_size slot_number value : String)
    (row : PriceIntervalAttestationRow) (db : DbState) :
    find_aggregate_interval_attestation interval_size slot_number value
        (insert_price_interval_attestation row db) =
      find_aggregate_interval_attestation interval_size slot_number value db := rfl

/-- Inserting a value attestation row does not touch the aggregate table. -/
theorem find_aggregate_insert_value_row (interval_size slot_number value : String)
    (row : PriceValueAttestationRow) (db : DbState) :
    find_aggregate_interval_attestation interval_size slot_number value
        (insert_price_value_attestation row db) =
      find_aggregate_interval_attestation interval_size slot_number value db := rfl

/-- Running a sequence of merges that all target one key, starting from a
bucket that is present with a decodable aggregate and count at least 1:
every merge takes the UPDATE branch, the count grows by the number of
merges, and the stored aggregate is the fold of `add_assign` over the merged
signatures. -/
theorem merge_sequence_present_loop (C : Crypto) (v sz sn : Nat)
    (hrt : ∀ a : C.AggSig, load_agg C (store_agg C a) = some a) :
    ∀ msgs : List (SignedIntervalInclusionMessage C.Sig),
    (∀ m ∈ msgs, m.message.value = v ∧ m.message.interval_size = sz ∧
      m.message.slot_number = sn) →
    ∀ (db : DbState) (entry : AggregateIntervalAttestationRow) (a : C.AggSig),
    find_aggregate_interval_attestation (toString sz) (toString sn) (toString v) db =
      some entry →
    entry.aggregate_signature = store_agg C a →
    1 ≤ entry.num_validators →
    ∃ (db' : DbState) (entry' : AggregateIntervalAttestationRow),
      merge_sequence C msgs (db, []) = (Except.ok (), (db', [])) ∧
      find_aggregate_interval_attestation (toString sz) (toString sn) (toString v) db' =
        some entry' ∧
      entry'.num_validators = entry.num_validators + msgs.length ∧
      entry'.aggregate_signature =
        store_agg C (msgs.foldl (fun acc m => C.add_assign acc m.signature) a) := by
  intro msgs
  induction msgs with
  | nil =>
      intro _ db entry a hfind hagg hnum
      exact ⟨db, entry, rfl, hfind, by simp, by simp only [List.foldl_nil]; exact hagg⟩
  | cons m rest ih =>
      intro hkey db entry a hfind hagg hnum
      obtain ⟨hv, hsz, hsn⟩ := hkey m (List.mem_cons_self m rest)
      have hstep := extend_or_create_present C m db entry a
        (by rw [hv, hsz, hsn]; exact hfind)
        (by rw [hagg]; exact hrt a)
        (by omega)
      have hfind' : find_aggregate_interval_attestation (toString sz) (toString sn)
          (toString v)
          (update_aggregate_interval_attestation (entry.num_validators + 1)
            (store_agg C (C.add_assign a m.signature))
            (toString m.message.interval_size) (toString m.message.slot_number)
            (toString m.message.value) db) =
          some { entry with num_validators := entry.num_validators + 1,
                            aggregate_signature :=
                              store_agg C (C.add_assign a m.signature) } := by
        rw [hv, hsz, hsn, find_aggregate_update, hfind]
        rfl
      obtain ⟨db', entry', hrun, hfind'', hnum', hagg'⟩ :=
        ih (fun m' hm' => hkey m' (List.mem_cons_of_mem m hm'))
          (update_aggregate_interval_attestation (entry.num_validators + 1)
            (store_agg C (C.add_assign a m.signature))
            (toString m.message.interval_size) (toString m.message.slot_number)
            (toString m.message.value) db)
          { entry with num_validators := entry.num_validators + 1,
                       aggregate_signature := store_agg C (C.add_assign a m.signature) }
          (C.add_assign a m.signature) hfind' rfl (by simp; omega)
      refine ⟨db', entry', ?_, hfind'', ?_, ?_⟩
      · show DbM.bind (extend_or_create_aggregate_interval_attestation C m)
          (fun _ => merge_sequence C rest) (db, []) = (Except.ok (), (db', []))
        rw [DbM.bind, hstep]
        exact hrun
      · rw [hnum', List.length_cons]
        push_cast
        ring
      · simpa using hagg'

/-- The row `save_price_value_attestation` inserts. -/
def value_attestation_row (C : Crypto) (m : SignedPriceValueMessage C.Sig)
    (validator_public_key : C.PubKey) : PriceValueAttestationRow :=
  { validator_public_key := C.pk_to_string validator_public_key,
    value := toString m.message.price.value,
    slot_number := toString m.message.slot_number,
    signature := C.sig_to_string m.signature }

/-- The row `save_price_interval_attestation` inserts. -/
def interval_attestation_row (C : Crypto) (m : SignedIntervalInclusionMessage C.Sig)
    (validator_public_key : C.PubKey) : PriceIntervalAttestationRow :=
  { validator_public_key := C.pk_to_string validator_public_key,
    value := toString m.message.value,
    interval_size := toString m.message.interval_size,
    slot_number := toString m.message.slot_number,
    signature := C.sig_to_string m.signature }

/-- An empty database. -/
def emptyDb : DbState := ⟨[], [], []⟩

/-- Sample signed interval claims over the key (100, 5, 10) for concrete
evaluation (in the test scheme, signature n is valid for public key n). -/
def sample_im1 : SignedIntervalInclusionMessage testCrypto.Sig :=
  ⟨⟨100, 10, 5⟩, (7 : Nat)⟩

def sample_im2 : SignedIntervalInclusionMessage testCrypto.Sig :=
  ⟨⟨100, 10, 5⟩, (8 : Nat)⟩

/-- A sample signed value claim. -/
def sample_vm : SignedPriceValueMessage testCrypto.Sig :=
  ⟨⟨⟨100⟩, 5⟩, (7 : Nat)⟩

/-- Claim C2: merging a signature `s` into a key whose bucket is absent
inserts a bucket row with `num_validators = 1` and an aggregate signature
equal to the group identity (`AggregateSignature::infinity()`) combined with
`s`, and the merge succeeds. -/
theorem C2_absent_merge_creates_bucket (C : Crypto)
    (m : SignedIntervalInclusionMessage C.Sig) (db : DbState)
    (habsent : find_aggregate_interval_attestation (toString m.message.interval_size)
      (toString m.message.slot_number) (toString m.message.value) db = none) :
    extend_or_create_aggregate_interval_attestation C m (db, []) =
      (Except.ok (), (insert_aggregate_interval_attestation (new_aggregate_row C m) db, [])) ∧
    (new_aggregate_row C m).num_validators = 1 ∧
    (new_aggregate_row C m).aggregate_signature =
      store_agg C (C.add_assign C.infinity m.signature) :=
  ⟨extend_or_create_absent C m db habsent, rfl, rfl⟩

theorem C2_witness :
    find_aggregate_interval_attestation (toString sample_im1.message.interval_size)
      (toString sample_im1.message.slot_number) (toString sample_im1.message.value)
      emptyDb = none ∧
    (extend_or_create_aggregate_interval_attestation testCrypto sample_im1 (emptyDb, []) =
      (Except.ok (), (insert_aggregate_interval_attestation
        (new_aggregate_row testCrypto sample_im1) emptyDb, [])) ∧
    (new_aggregate_row testCrypto sample_im1).num_validators = 1 ∧
    (new_aggregate_row testCrypto sample_im1).aggregate_signature =
      store_agg testCrypto (testCrypto.add_assign testCrypto.infinity sample_im1.signature)) :=
  ⟨rfl, C2_absent_merge_creates_bucket testCrypto sample_im1 emptyDb rfl⟩

/-- Claim C3: merging a signature `s` into a key whose bucket is present
with state `(count, agg)` (a reachable bucket, so `count ≥ 1`, with a
decodable stored aggregate) runs the UPDATE branch, writing back
`num_validators = count + 1` and `aggregate_signature = agg ⊕ s`; the
bucket row afterwards holds exactly those values. -/
theorem C3_present_merge_updates_bucket (C : Crypto)
    (m : SignedIntervalInclusionMessage C.Sig) (db : DbState)
    (entry : AggregateIntervalAttestationRow) (a : C.AggSig)
    (hfind : find_aggregate_interval_attestation (toString m.message.interval_size)
      (toString m.message.slot_number) (toString m.message.value) db = some entry)
    (hload : load_agg C entry.aggregate_signature = some a)
    (hnum : 1 ≤ entry.num_validators) :
    extend_or_create_aggregate_interval_attestation C m (db, []) =
      (Except.ok (), (update_aggregate_interval_attestation (entry.num_validators + 1)
        (store_agg C (C.add_assign a m.signature))
        (toString m.message.interval_size) (toString m.message.slot_number)
        (toString m.message.value) db, [])) ∧
    find_aggregate_interval_attestation (toString m.message.interval_size)
        (toString m.message.slot_number) (toString m.message.value)
        (update_aggregate_interval_attestation (entry.num_validators + 1)
          (store_agg C (C.add_assign a m.signature))
          (toString m.message.interval_size) (toString m.message.slot_number)
          (toString m.message.value) db) =
      some { entry with num_validators := entry.num_validators + 1,
                        aggregate_signature := store_agg C (C.add_assign a m.signature) } :=
  ⟨extend_or_create_present C m db entry a hfind hload (by omega),
   by rw [find_aggregate_update, hfind]; rfl⟩

/-- A database holding exactly the bucket created by merging `sample_im1`
into the empty store. -/
def sampleDb1 : DbState :=
  insert_aggregate_interval_attestation (new_aggregate_row testCrypto sample_im1) emptyDb

theorem C3_witness :
    (find_aggregate_interval_attestation (toString sample_im2.message.interval_size)
        (toString sample_im2.message.slot_number) (toString sample_im2.message.value)
        sampleDb1 = some (new_aggregate_row testCrypto sample_im1) ∧
      load_agg testCrypto (new_aggregate_row testCrypto sample_im1).aggregate_signature =
        some (testCrypto.add_assign testCrypto.infinity sample_im1.signature) ∧
      1 ≤ (new_aggregate_row testCrypto sample_im1).num_validators) ∧
    (extend_or_create_aggregate_interval_attestation testCrypto sample_im2 (sampleDb1, []) =
      (Except.ok (), (update_aggregate_interval_attestation
        ((new_aggregate_row testCrypto sample_im1).num_validators + 1)
        (store_agg testCrypto (testCrypto.add_assign
          (testCrypto.add_assign testCrypto.infinity sample_im1.signature)
          sample_im2.signature))
        (toString sample_im2.message.interval_size) (toString sample_im2.message.slot_number)
        (toString sample_im2.message.value) sampleDb1, [])) ∧
      find_aggregate_interval_attestation (toString sample_im2.message.interval_size)
          (toString sample_im2.message.slot_number) (toString sample_im2.message.value)
          (update_aggregate_interval_attestation
            ((new_aggregate_row testCrypto sample_im1).num_validators + 1)
            (store_agg testCrypto (testCrypto.add_assign
              (testCrypto.add_assign testCrypto.infinity sample_im1.signature)
              sample_im2.signature))
            (toString sample_im2.message.interval_size)
            (toString sample_im2.message.slot_number)
            (toString sample_im2.message.value) sampleDb1) =
        some { new_aggregate_row testCrypto sample_im1 with
                num_validators := (new_aggregate_row testCrypto sample_im1).num_validators + 1,
                aggregate_signature := store_agg testCrypto (testCrypto.add_assign
                  (testCrypto.add_assign testCrypto.infinity sample_im1.signature)
                  sample_im2.signature) }) :=
  ⟨⟨by decide, by rfl, by decide⟩,
   C3_present_merge_updates_bucket testCrypto sample_im2 sampleDb1
     (new_aggregate_row testCrypto sample_im1)
     (testCrypto.add_assign testCrypto.infinity sample_im1.signature)
     (by decide) (by rfl) (by decide)⟩

/-- Claim C4: if the value claim of a submission fails signature
verification, `post_oracle_message` rejects the whole submission with
`BAD_REQUEST` and performs no work at all: the database is unchanged and
the fault schedule is unconsumed (so no database call — no row insert, no
interval-claim processing, no bucket read or write — ever happened). -/
theorem C4_invalid_value_claim_rejects_submission (C : Crypto) (message : OracleMessage C)
    (db : DbState) (fs : Faults)
    (hbad : validate_message C PriceValueMessage.ssz_bytes message.validator_public_key
      message.value_message.message message.value_message.signature = false) :
    post_oracle_message C message (db, fs) =
      (Except.error StatusCode.BAD_REQUEST, (db, fs)) := by
  simp [post_oracle_message, save_price_value_attestation, hbad, throwErr]

/-- A submission whose value claim carries a wrong signature (in the test
scheme, signature 9 against public key 7). -/
def sample_bad_vm : SignedPriceValueMessage testCrypto.Sig :=
  ⟨⟨⟨100⟩, 5⟩, (9 : Nat)⟩

def sample_bad_message : OracleMessage testCrypto :=
  ⟨sample_bad_vm, [sample_im1], (7 : Nat)⟩

theorem C4_witness :
    validate_message testCrypto PriceValueMessage.ssz_bytes
      sample_bad_message.validator_public_key sample_bad_message.value_message.message
      sample_bad_message.value_message.signature = false ∧
    post_oracle_message testCrypto sample_bad_message (emptyDb, [true, true, true]) =
      (Except.error StatusCode.BAD_REQUEST, (emptyDb, [true, true, true])) :=
  ⟨by decide, C4_invalid_value_claim_rejects_submission testCrypto sample_bad_message
    emptyDb [true, true, true] (by decide)⟩

/-- Claim C6: a merge that finds a bucket whose stored aggregate signature
fails to decode (invalid hex, or bytes that are not a valid group element)
fails with the corresponding data-integrity error and leaves the database
untouched: it is never treated as the absent-bucket case (which succeeds and
inserts) and never resets the bucket to count 1. -/
theorem C6_malformed_stored_aggregate_is_integrity_error (C : Crypto)
    (m : SignedIntervalInclusionMessage C.Sig) (db : DbState)
    (entry : AggregateIntervalAttestationRow)
    (hfind : find_aggregate_interval_attestation (toString m.message.interval_size)
      (toString m.message.slot_number) (toString m.message.value) db = some entry)
    (hload : load_agg C entry.aggregate_signature = none) :
    ∃ e : OracleError,
      extend_or_create_aggregate_interval_attestation C m (db, []) =
        (Except.error e, (db, [])) ∧
      (e = OracleError.hexDecodeError ∨ e = OracleError.invalidAggregateSignatureInDb) := by
  cases hhex : C.hex_decode entry.aggregate_signature with
  | none =>
      exact ⟨OracleError.hexDecodeError,
        extend_or_create_bad_hex C m db entry hfind hhex, Or.inl rfl⟩
  | some bs =>
      have hdes : C.deserializeAgg bs = none := by
        unfold load_agg at hload
        rw [hhex] at hload
        simpa using hload
      exact ⟨OracleError.invalidAggregateSignatureInDb,
        extend_or_create_bad_group_element C m db entry bs hfind hhex hdes, Or.inr rfl⟩

/-- A database whose bucket for (100, 5, 10) stores a malformed aggregate
signature (two characters decode to two bytes, which is not a valid
one-byte aggregate in the test codec). -/
def sampleMalformedDb : DbState :=
  ⟨[], [], [{ value := "100", interval_size := "10", slot_number := "5",
              num_validators := 1, aggregate_signature := "ab" }]⟩

theorem C6_witness :
    (find_aggregate_interval_attestation (toString sample_im1.message.interval_size)
        (toString sample_im1.message.slot_number) (toString sample_im1.message.value)
        sampleMalformedDb =
      some { value := "100", interval_size := "10", slot_number := "5",
             num_validators := 1, aggregate_signature := "ab" } ∧
      load_agg testCrypto "ab" = none) ∧
    ∃ e : OracleError,
      extend_or_create_aggregate_interval_attestation testCrypto sample_im1
          (sampleMalformedDb, []) =
        (Except.error e, (sampleMalformedDb, [])) ∧
      (e = OracleError.hexDecodeError ∨ e = OracleError.invalidAggregateSignatureInDb) :=
  ⟨⟨by decide, by rfl⟩,
   C6_malformed_stored_aggregate_is_integrity_error testCrypto sample_im1 sampleMalformedDb
     { value := "100", interval_size := "10", slot_number := "5",
       num_validators := 1, aggregate_signature := "ab" } (by decide) (by rfl)⟩

/-- Claim C1: starting from an absent bucket, a sequence of n successful
merges for one (value, slot_number, interval_size) key leaves a bucket with
`num_validators = n` and an aggregate signature equal to the BLS group-sum
(fold of `add_assign` from `infinity`) of the n merged signatures, provided
the storage codec round-trips. -/
theorem C1_merge_sequence_counts_and_sums (C : Crypto) (v sz sn : Nat)
    (msgs : List (SignedIntervalInclusionMessage C.Sig))
    (hne : msgs ≠ [])
    (hkey : ∀ m ∈ msgs, m.message.value = v ∧ m.message.interval_size = sz ∧
      m.message.slot_number = sn)
    (hrt : ∀ a : C.AggSig, load_agg C (store_agg C a) = some a)
    (db₀ : DbState)
    (habsent : find_aggregate_interval_attestation (toString sz) (toString sn)
      (toString v) db₀ = none) :
    ∃ (db' : DbState) (entry' : AggregateIntervalAttestationRow),
      merge_sequence C msgs (db₀, []) = (Except.ok (), (db', [])) ∧
      find_aggregate_interval_attestation (toString sz) (toString sn) (toString v) db' =
        some entry' ∧
      entry'.num_validators = (msgs.length : Int) ∧
      entry'.aggregate_signature =
        store_agg C (group_sum C (msgs.map fun m => m.signature)) := by
  cases msgs with
  | nil => exact absurd rfl hne
  | cons m rest =>
      obtain ⟨hv, hsz, hsn⟩ := hkey m (List.mem_cons_self m rest)
      have hstep := extend_or_create_absent C m db₀ (by rw [hv, hsz, hsn]; exact habsent)
      have hmatch : agg_key_matches (toString sz) (toString sn) (toString v)
          (new_aggregate_row C m) = true := by
        simp [agg_key_matches, new_aggregate_row, hv, hsz, hsn]
      have hfind1 : find_aggregate_interval_attestation (toString sz) (toString sn)
          (toString v) (insert_aggregate_interval_attestation (new_aggregate_row C m) db₀) =
          some (new_aggregate_row C m) := by
        rw [find_aggregate_insert, habsent, hmatch]
        rfl
      obtain ⟨db', entry', hrun, hfind', hnum', hagg'⟩ :=
        merge_sequence_present_loop C v sz sn hrt rest
          (fun m' hm' => hkey m' (List.mem_cons_of_mem m hm'))
          (insert_aggregate_interval_attestation (new_aggregate_row C m) db₀)
          (new_aggregate_row C m) (C.add_assign C.infinity m.signature)
          hfind1 rfl (by simp [new_aggregate_row])
      refine ⟨db', entry', ?_, hfind', ?_, ?_⟩
      · show DbM.bind (extend_or_create_aggregate_interval_attestation C m)
          (fun _ => merge_sequence C rest) (db₀, []) = (Except.ok (), (db', []))
        rw [DbM.bind, hstep]
        exact hrun
      · rw [hnum']
        show (new_aggregate_row C m).num_validators + (rest.length : Int) = _
        simp [new_aggregate_row, List.length_cons]
        ring
      · rw [hagg']
        congr 1
        simp only [group_sum, List.map_cons, List.foldl_cons, List.foldl_map]

theorem C1_witness :
    ([sample_im1, sample_im2] ≠ ([] : List (SignedIntervalInclusionMessage testCrypto.Sig)) ∧
      (∀ a : testCrypto.AggSig, load_agg testCrypto (store_agg testCrypto a) = some a)) ∧
    ∃ (db' : DbState) (entry' : AggregateIntervalAttestationRow),
      merge_sequence testCrypto [sample_im1, sample_im2] (emptyDb, []) =
        (Except.ok (), (db', [])) ∧
      find_aggregate_interval_attestation (toString (10 : Nat)) (toString (5 : Nat))
        (toString (100 : Nat)) db' = some entry' ∧
      entry'.num_validators = (([sample_im1, sample_im2] :
        List (SignedIntervalInclusionMessage testCrypto.Sig)).length : Int) ∧
      entry'.aggregate_signature = store_agg testCrypto (group_sum testCrypto
        ([sample_im1, sample_im2].map fun m => m.signature)) :=
  ⟨⟨List.cons_ne_nil _ _, testCrypto_roundtrip⟩,
   C1_merge_sequence_counts_and_sums testCrypto 100 10 5 [sample_im1, sample_im2]
     (List.cons_ne_nil _ _)
     (by intro m hm; fin_cases hm <;> exact ⟨rfl, rfl, rfl⟩)
     testCrypto_roundtrip emptyDb rfl⟩

theorem DbM.pure_bind {α β : Type} (a : α) (f : α → DbM β) :
    DbM.bind (DbM.pure a) f = f a := rfl

theorem DbM.bind_assoc {α β γ : Type} (m : DbM α) (f : α → DbM β) (g : β → DbM γ) :
    DbM.bind (DbM.bind m f) g = DbM.bind m fun a => DbM.bind (f a) g := by
  funext s
  simp only [DbM.bind]
  rcases m s with ⟨r, s'⟩
  cases r <;> rfl

/-- The `for` loop over an appended list of interval claims is the loop over
the first part followed by the loop over the second. -/
theorem save_price_interval_attestations_append (C : Crypto) (pk : C.PubKey)
    (l₁ l₂ : List (SignedIntervalInclusionMessage C.Sig)) :
    save_price_interval_attestations C (l₁ ++ l₂) pk =
      DbM.bind (save_price_interval_attestations C l₁ pk)
        fun _ => save_price_interval_attestations C l₂ pk := by
  induction l₁ with
  | nil => rfl
  | cons m t ih =>
      show save_price_interval_attestations C (m :: (t ++ l₂)) pk = _
      simp only [save_price_interval_attestations, ih, DbM.bind_assoc]

/-- An interval claim with an invalid signature is rejected before any
database call: the state (database and fault schedule) is untouched. -/
theorem save_price_interval_attestation_invalid (C : Crypto)
    (m : SignedIntervalInclusionMessage C.Sig) (pk : C.PubKey) (s : DbState × Faults)
    (hbad : validate_message C IntervalInclusionMessage.ssz_bytes pk m.message
      m.signature = false) :
    save_price_interval_attestation C m pk s =
      (Except.error OracleError.invalidSignature, s) := by
  simp [save_price_interval_attestation, hbad, throwErr]

/-- Claim C5: when interval claim i of a submission fails signature
verification, processing stops at claim i: the handler returns
`BAD_REQUEST`, the core loop reports the invalid signature, and the final
database state is exactly the state reached after the value claim and the
interval claims before i were persisted — claim i writes nothing, the
claims after i are never processed, and the earlier writes stay with no
rollback. -/
theorem C5_failing_interval_claim_stops_processing (C : Crypto)
    (vm : SignedPriceValueMessage C.Sig) (pk : C.PubKey)
    (pre post : List (SignedIntervalInclusionMessage C.Sig))
    (bad : SignedIntervalInclusionMessage C.Sig)
    (db₀ db₁ db₂ : DbState)
    (h1 : save_price_value_attestation C vm pk (db₀, []) = (Except.ok (), (db₁, [])))
    (h2 : save_price_interval_attestations C pre pk (db₁, []) = (Except.ok (), (db₂, [])))
    (hbad : validate_message C IntervalInclusionMessage.ssz_bytes pk bad.message
      bad.signature = false) :
    save_price_interval_attestations C (pre ++ bad :: post) pk (db₁, []) =
      (Except.error OracleError.invalidSignature, (db₂, [])) ∧
    post_oracle_message C ⟨vm, pre ++ bad :: post, pk⟩ (db₀, []) =
      (Except.error StatusCode.BAD_REQUEST, (db₂, [])) := by
  have hb := save_price_interval_attestation_invalid C bad pk (db₂, []) hbad
  have hlist : save_price_interval_attestations C (pre ++ bad :: post) pk (db₁, []) =
      (Except.error OracleError.invalidSignature, (db₂, [])) := by
    rw [save_price_interval_attestations_append]
    simp only [DbM.bind, h2]
    simp only [save_price_interval_attestations, DbM.bind, hb]
  refine ⟨hlist, ?_⟩
  simp only [post_oracle_message, h1, hlist]

/-- State after persisting the sample value claim. -/
def sampleDbAfterValue : DbState :=
  insert_price_value_attestation (value_attestation_row testCrypto sample_vm (7 : Nat)) emptyDb

/-- State after additionally persisting the first sample interval claim
(row plus aggregate bucket). -/
def sampleDbAfterPre : DbState :=
  insert_aggregate_interval_attestation (new_aggregate_row testCrypto sample_im1)
    (insert_price_interval_attestation
      (interval_attestation_row testCrypto sample_im1 (7 : Nat)) sampleDbAfterValue)

theorem C5_witness :
    (save_price_value_attestation testCrypto sample_vm (7 : Nat) (emptyDb, []) =
        (Except.ok (), (sampleDbAfterValue, [])) ∧
      save_price_interval_attestations testCrypto [sample_im1] (7 : Nat)
        (sampleDbAfterValue, []) = (Except.ok (), (sampleDbAfterPre, [])) ∧
      validate_message testCrypto IntervalInclusionMessage.ssz_bytes (7 : Nat)
        sample_im2.message sample_im2.signature = false) ∧
    (save_price_interval_attestations testCrypto ([sample_im1] ++ sample_im2 :: [sample_im1])
        (7 : Nat) (sampleDbAfterValue, []) =
      (Except.error OracleError.invalidSignature, (sampleDbAfterPre, [])) ∧
    post_oracle_message testCrypto
        ⟨sample_vm, [sample_im1] ++ sample_im2 :: [sample_im1], (7 : Nat)⟩
        (emptyDb, []) =
      (Except.error StatusCode.BAD_REQUEST, (sampleDbAfterPre, []))) :=
  ⟨⟨by rfl, by rfl, by decide⟩,
   C5_failing_interval_claim_stops_processing testCrypto sample_vm (7 : Nat)
     [sample_im1] [sample_im1] sample_im2 emptyDb sampleDbAfterValue sampleDbAfterPre
     (by rfl) (by rfl) (by decide)⟩

/-- An interval claim with a valid signature first inserts its
attestation row, then proceeds to the aggregate merge on the grown
database. -/
theorem save_price_interval_attestation_valid_step (C : Crypto)
    (m : SignedIntervalInclusionMessage C.Sig) (pk : C.PubKey) (db : DbState)
    (hvalid : validate_message C IntervalInclusionMessage.ssz_bytes pk m.message
      m.signature = true) :
    save_price_interval_attestation C m pk (db, []) =
      extend_or_create_aggregate_interval_attestation C m
        (insert_price_interval_attestation (interval_attestation_row C m pk) db, []) := by
  simp [save_price_interval_attestation, hvalid, DbM.bind, sqlx_exec, sqlx_step,
    interval_attestation_row]

/-- Claim C7: the aggregate bucket records no validator identity, so the
same validator merging the same valid claim twice is not rejected: both
merges succeed and the bucket ends with `num_validators = 2` and the
signature added in twice (silent double-counting). -/
theorem C7_duplicate_validator_double_counts (C : Crypto)
    (m : SignedIntervalInclusionMessage C.Sig) (pk : C.PubKey) (db₀ : DbState)
    (hvalid : validate_message C IntervalInclusionMessage.ssz_bytes pk m.message
      m.signature = true)
    (hrt : ∀ a : C.AggSig, load_agg C (store_agg C a) = some a)
    (habsent : find_aggregate_interval_attestation (toString m.message.interval_size)
      (toString m.message.slot_number) (toString m.message.value) db₀ = none) :
    ∃ (db' : DbState) (entry' : AggregateIntervalAttestationRow),
      DbM.bind (save_price_interval_attestation C m pk)
        (fun _ => save_price_interval_attestation C m pk) (db₀, []) =
        (Except.ok (), (db', [])) ∧
      find_aggregate_interval_attestation (toString m.message.interval_size)
        (toString m.message.slot_number) (toString m.message.value) db' = some entry' ∧
      entry'.num_validators = 2 ∧
      entry'.aggregate_signature =
        store_agg C (C.add_assign (C.add_assign C.infinity m.signature) m.signature) := by
  set K₁ := toString m.message.interval_size with hK₁
  set K₂ := toString m.message.slot_number with hK₂
  set K₃ := toString m.message.value with hK₃
  set db₁ := insert_price_interval_attestation (interval_attestation_row C m pk) db₀ with hdb₁
  have habsent₁ : find_aggregate_interval_attestation K₁ K₂ K₃ db₁ = none := habsent
  have hstep₁ : save_price_interval_attestation C m pk (db₀, []) =
      (Except.ok (), (insert_aggregate_interval_attestation (new_aggregate_row C m) db₁, [])) := by
    rw [save_price_interval_attestation_valid_step C m pk db₀ hvalid]
    exact extend_or_create_absent C m db₁ habsent₁
  set db₂ := insert_aggregate_interval_attestation (new_aggregate_row C m) db₁ with hdb₂
  have hfind₂ : find_aggregate_interval_attestation K₁ K₂ K₃ db₂ =
      some (new_aggregate_row C m) := by
    rw [hdb₂, find_aggregate_insert, habsent₁]
    simp [agg_key_matches, new_aggregate_row]
  set db₃ := insert_price_interval_attestation (interval_attestation_row C m pk) db₂ with hdb₃
  have hfind₃ : find_aggregate_interval_attestation K₁ K₂ K₃ db₃ =
      some (new_aggregate_row C m) := hfind₂
  have hstep₂ : save_price_interval_attestation C m pk (db₂, []) =
      (Except.ok (), (update_aggregate_interval_attestation
        ((new_aggregate_row C m).num_validators + 1)
        (store_agg C (C.add_assign (C.add_assign C.infinity m.signature) m.signature))
        K₁ K₂ K₃ db₃, [])) := by
    rw [save_price_interval_attestation_valid_step C m pk db₂ hvalid]
    exact extend_or_create_present C m db₃ (new_aggregate_row C m)
      (C.add_assign C.infinity m.signature) hfind₃
      (by rw [show (new_aggregate_row C m).aggregate_signature =
        store_agg C (C.add_assign C.infinity m.signature) from rfl]; exact hrt _)
      (by simp [new_aggregate_row])
  refine ⟨update_aggregate_interval_attestation ((new_aggregate_row C m).num_validators + 1)
      (store_agg C (C.add_assign (C.add_assign C.infinity m.signature) m.signature))
      K₁ K₂ K₃ db₃,
    { new_aggregate_row C m with
        num_validators := (new_aggregate_row C m).num_validators + 1,
        aggregate_signature :=
          store_agg C (C.add_assign (C.add_assign C.infinity m.signature) m.signature) },
    ?_, ?_, ?_, rfl⟩
  · simp only [DbM.bind, hstep₁]
    exact hstep₂
  · rw [find_aggregate_update, hfind₃]
    rfl
  · simp [new_aggregate_row]

theorem C7_witness :
    (validate_message testCrypto IntervalInclusionMessage.ssz_bytes (7 : Nat)
        sample_im1.message sample_im1.signature = true ∧
      (∀ a : testCrypto.AggSig, load_agg testCrypto (store_agg testCrypto a) = some a) ∧
      find_aggregate_interval_attestation (toString sample_im1.message.interval_size)
        (toString sample_im1.message.slot_number) (toString sample_im1.message.value)
        emptyDb = none) ∧
    ∃ (db' : DbState) (entry' : AggregateIntervalAttestationRow),
      DbM.bind (save_price_interval_attestation testCrypto sample_im1 (7 : Nat))
        (fun _ => save_price_interval_attestation testCrypto sample_im1 (7 : Nat))
        (emptyDb, []) = (Except.ok (), (db', [])) ∧
      find_aggregate_interval_attestation (toString sample_im1.message.interval_size)
        (toString sample_im1.message.slot_number) (toString sample_im1.message.value) db' =
        some entry' ∧
      entry'.num_validators = 2 ∧
      entry'.aggregate_signature = store_agg testCrypto
        (testCrypto.add_assign (testCrypto.add_assign testCrypto.infinity
          sample_im1.signature) sample_im1.signature) :=
  ⟨⟨by decide, testCrypto_roundtrip, by decide⟩,
   C7_duplicate_validator_double_counts testCrypto sample_im1 (7 : Nat) emptyDb
     (by decide) testCrypto_roundtrip (by decide)⟩

/-- Claim C8: each core operation reports which error kind occurred through
the tagged `OracleError` result — an invalid signature, a malformed stored
aggregate (hex failure or invalid group element), or a storage failure —
the kinds are pairwise distinguishable, and the HTTP boundary collapses all
of them into the single `BAD_REQUEST` rejection. -/
theorem C8_error_kinds_distinguishable (C : Crypto)
    (vm : SignedPriceValueMessage C.Sig) (pk : C.PubKey)
    (m : SignedIntervalInclusionMessage C.Sig)
    (vm' : SignedPriceValueMessage C.Sig) (pk' : C.PubKey)
    (db₁ db₂ db₃ : DbState) (fs₁ fs₃ : Faults)
    (entry : AggregateIntervalAttestationRow) (bs : List Nat)
    (hbad : validate_message C PriceValueMessage.ssz_bytes pk vm.message
      vm.signature = false)
    (hfind : find_aggregate_interval_attestation (toString m.message.interval_size)
      (toString m.message.slot_number) (toString m.message.value) db₂ = some entry)
    (hhex : C.hex_decode entry.aggregate_signature = some bs)
    (hdes : C.deserializeAgg bs = none)
    (hgood : validate_message C PriceValueMessage.ssz_bytes pk' vm'.message
      vm'.signature = true) :
    save_price_value_attestation C vm pk (db₁, fs₁) =
      (Except.error OracleError.invalidSignature, (db₁, fs₁)) ∧
    extend_or_create_aggregate_interval_attestation C m (db₂, []) =
      (Except.error OracleError.invalidAggregateSignatureInDb, (db₂, [])) ∧
    save_price_value_attestation C vm' pk' (db₃, false :: fs₃) =
      (Except.error OracleError.storageFailure, (db₃, fs₃)) ∧
    (OracleError.invalidSignature ≠ OracleError.hexDecodeError ∧
      OracleError.invalidSignature ≠ OracleError.invalidAggregateSignatureInDb ∧
      OracleError.invalidSignature ≠ OracleError.storageFailure ∧
      OracleError.hexDecodeError ≠ OracleError.storageFailure ∧
      OracleError.invalidAggregateSignatureInDb ≠ OracleError.storageFailure ∧
      OracleError.hexDecodeError ≠ OracleError.invalidAggregateSignatureInDb) ∧
    (∀ (msg : OracleMessage C) (s : DbState × Faults),
      (post_oracle_message C msg s).1 = Except.ok () ∨
      (post_oracle_message C msg s).1 = Except.error StatusCode.BAD_REQUEST) := by
  refine ⟨?_, ?_, ?_, by decide, ?_⟩
  · simp [save_price_value_attestation, hbad, throwErr]
  · exact extend_or_create_bad_group_element C m db₂ entry bs hfind hhex hdes
  · simp [save_price_value_attestation, hgood, DbM.bind, sqlx_exec, sqlx_step]
  · intro msg s
    simp only [post_oracle_message]
    split
    · simp
    · split <;> simp

/-- A malformed-aggregate bucket whose stored string hex-decodes but is not
one byte long (so not a valid aggregate in the test codec). -/
def sampleMalformedRow : AggregateIntervalAttestationRow :=
  { value := "100", interval_size := "10", slot_number := "5",
    num_validators := 1, aggregate_signature := "ab" }

theorem C8_witness :
    (validate_message testCrypto PriceValueMessage.ssz_bytes (7 : Nat)
        sample_bad_vm.message sample_bad_vm.signature = false ∧
      find_aggregate_interval_attestation (toString sample_im1.message.interval_size)
        (toString sample_im1.message.slot_number) (toString sample_im1.message.value)
        sampleMalformedDb = some sampleMalformedRow ∧
      testCrypto.hex_decode sampleMalformedRow.aggregate_signature = some [97, 98] ∧
      testCrypto.deserializeAgg [97, 98] = none ∧
      validate_message testCrypto PriceValueMessage.ssz_bytes (7 : Nat)
        sample_vm.message sample_vm.signature = true) ∧
    (save_price_value_attestation testCrypto sample_bad_vm (7 : Nat) (emptyDb, []) =
        (Except.error OracleError.invalidSignature, (emptyDb, [])) ∧
      extend_or_create_aggregate_interval_attestation testCrypto sample_im1
          (sampleMalformedDb, []) =
        (Except.error OracleError.invalidAggregateSignatureInDb, (sampleMalformedDb, [])) ∧
      save_price_value_attestation testCrypto sample_vm (7 : Nat) (emptyDb, [false]) =
        (Except.error OracleError.storageFailure, (emptyDb, [])) ∧
      (OracleError.invalidSignature ≠ OracleError.hexDecodeError ∧
        OracleError.invalidSignature ≠ OracleError.invalidAggregateSignatureInDb ∧
        OracleError.invalidSignature ≠ OracleError.storageFailure ∧
        OracleError.hexDecodeError ≠ OracleError.storageFailure ∧
        OracleError.invalidAggregateSignatureInDb ≠ OracleError.storageFailure ∧
        OracleError.hexDecodeError ≠ OracleError.invalidAggregateSignatureInDb) ∧
      (∀ (msg : OracleMessage testCrypto) (s : DbState × Faults),
        (post_oracle_message testCrypto msg s).1 = Except.ok () ∨
        (post_oracle_message testCrypto msg s).1 =
          Except.error StatusCode.BAD_REQUEST)) :=
  ⟨⟨by decide, by decide, by rfl, by rfl, by decide⟩,
   C8_error_kinds_distinguishable testCrypto sample_bad_vm (7 : Nat) sample_im1
     sample_vm (7 : Nat) emptyDb sampleMalformedDb emptyDb [] []
     sampleMalformedRow [97, 98]
     (by decide) (by decide) (by rfl) (by rfl) (by decide)⟩

/-- Claim C9: the digest serializes the message's fields in declaration
order with fixed-width (8-byte little-endian) integer encodings, applies a
256-bit (32-byte) hash to those bytes, and is deterministic — equal
messages give bit-identical digests.  Stated for both message types the
code digests. -/
theorem C9_digest_fixed_layout_and_deterministic (C : Crypto) :
    (∀ m : PriceValueMessage,
      get_message_digest C PriceValueMessage.ssz_bytes m =
        C.sha3_256 (u64_le_bytes m.price.value ++ u64_le_bytes m.slot_number)) ∧
    (∀ m : IntervalInclusionMessage,
      get_message_digest C IntervalInclusionMessage.ssz_bytes m =
        C.sha3_256 (u64_le_bytes m.value ++ u64_le_bytes m.interval_size ++
          u64_le_bytes m.slot_number)) ∧
    (∀ n : Nat, (u64_le_bytes n).length = 8) ∧
    (∀ m : PriceValueMessage,
      (get_message_digest C PriceValueMessage.ssz_bytes m).length = 32) ∧
    (∀ m : IntervalInclusionMessage,
      (get_message_digest C IntervalInclusionMessage.ssz_bytes m).length = 32) ∧
    (∀ m₁ m₂ : PriceValueMessage, m₁ = m₂ →
      get_message_digest C PriceValueMessage.ssz_bytes m₁ =
        get_message_digest C PriceValueMessage.ssz_bytes m₂) ∧
    (∀ m₁ m₂ : IntervalInclusionMessage, m₁ = m₂ →
      get_message_digest C IntervalInclusionMessage.ssz_bytes m₁ =
        get_message_digest C IntervalInclusionMessage.ssz_bytes m₂) := by
  refine ⟨fun m => rfl, fun m => rfl, fun n => ?_, fun m => C.sha3_256_len _,
    fun m => C.sha3_256_len _, fun m₁ m₂ h => by rw [h], fun m₁ m₂ h => by rw [h]⟩
  simp [u64_le_bytes]

theorem C9_witness :
    (get_message_digest testCrypto PriceValueMessage.ssz_bytes sample_vm.message).length =
      32 ∧
    get_message_digest testCrypto IntervalInclusionMessage.ssz_bytes sample_im1.message =
      testCrypto.sha3_256 (u64_le_bytes 100 ++ u64_le_bytes 10 ++ u64_le_bytes 5) :=
  ⟨(C9_digest_fixed_layout_and_deterministic testCrypto).2.2.2.1 sample_vm.message,
   (C9_digest_fixed_layout_and_deterministic testCrypto).2.1 sample_im1.message⟩

/-- Claim C10: a submission with a valid value claim and no interval claims
succeeds, appending exactly one row to `price_value_attestations` and
making exactly one database call — the interval and aggregate tables are
untouched and never even read. -/
theorem C10_empty_interval_claims_only_value_row (C : Crypto)
    (vm : SignedPriceValueMessage C.Sig) (pk : C.PubKey)
    (db : DbState) (fs : Faults)
    (hvalid : validate_message C PriceValueMessage.ssz_bytes pk vm.message
      vm.signature = true) :
    post_oracle_message C ⟨vm, [], pk⟩ (db, true :: fs) =
      (Except.ok (),
        (insert_price_value_attestation (value_attestation_row C vm pk) db, fs)) := by
  simp [post_oracle_message, save_price_value_attestation, hvalid, sqlx_exec, sqlx_step,
    DbM.bind, save_price_interval_attestations, DbM.pure, value_attestation_row]

theorem C10_witness :
    validate_message testCrypto PriceValueMessage.ssz_bytes (7 : Nat)
      sample_vm.message sample_vm.signature = true ∧
    post_oracle_message testCrypto ⟨sample_vm, [], (7 : Nat)⟩ (emptyDb, [true]) =
      (Except.ok (),
        (insert_price_value_attestation
          (value_attestation_row testCrypto sample_vm (7 : Nat)) emptyDb, [])) :=
  ⟨by decide,
   C10_empty_interval_claims_only_value_row testCrypto sample_vm (7 : Nat) emptyDb []
     (by decide)⟩
